import Mathlib

/-
  Verification development for the schema-driven form engine.

  Shallow embedding of the engine core, translated from the
  TypeScript sources:
    - src/schema/resolver.ts       (condition resolver)
    - src/validation/sync-validators.ts  (built-in validators)
    - src/validation/pipeline.ts   (sync pipeline, debounce, async validator)
    - src/hooks/useAutosave.ts     (autosave save step, version tracking)

  JavaScript runtime values are modelled by the inductive JsValue;
  host facilities that are not part of the repository (the RegExp
  engine, the URL parser) are abstracted as explicit function
  parameters, so every theorem quantifying over them holds for any
  host behaviour.
-/

namespace FormEngine

/-- A JavaScript runtime value as it can appear in a form values
snapshot or a condition comparand: string, number, boolean, array,
plain object, null or undefined. Numbers are modelled as integers
(no claim under verification depends on float behaviour). -/
inductive JsValue where
  | str (s : String)
  | num (n : Int)
  | bool (b : Bool)
  | arr (xs : List JsValue)
  | obj (entries : List (String × JsValue))
  | null
  | undefined

/-- A form values snapshot: a JS object, keys unique. -/
def FormValues := List (String × JsValue)

/-- JS String.prototype.trim, computed structurally on the
character list: drop leading and trailing whitespace. -/
def jsTrim (s : String) : String :=
  ⟨((s.data.dropWhile Char.isWhitespace).reverse.dropWhile Char.isWhitespace).reverse⟩

/-- JS strict equality on runtime values. Arrays and objects
compare by reference in JS; a field value and a condition comparand
originate from disjoint structures, so distinct composites are
never the same reference and compare unequal. -/
def jsEq : JsValue → JsValue → Bool
  | .str a, .str b => a == b
  | .num a, .num b => a == b
  | .bool a, .bool b => a == b
  | .null, .null => true
  | .undefined, .undefined => true
  | _, _ => false

/-- Helper for strIncludes: does the needle occur as a contiguous
run inside the haystack character list. -/
def strIncludesAux (needle : List Char) : List Char → Bool
  | [] => needle.isEmpty
  | c :: t => needle.isPrefixOf (c :: t) || strIncludesAux needle t

/-- JS String.prototype.includes: substring test. -/
def strIncludes (hay needle : String) : Bool :=
  strIncludesAux needle.data hay.data

/-- JS Array.prototype.includes under the jsEq model. -/
def arrIncludes (xs : List JsValue) (v : JsValue) : Bool :=
  xs.any (fun x => jsEq x v)

/-- From resolver.ts isEmpty: null and undefined are empty, a string
is empty iff its trim is empty, numbers and booleans are never
empty, an array is empty iff it has length 0, anything else is not
empty. -/
def isEmpty : JsValue → Bool
  | .null => true
  | .undefined => true
  | .str s => jsTrim s == ""
  | .num _ => false
  | .bool _ => false
  | .arr xs => xs.length == 0
  | .obj _ => false

/-- Property read on a JS object model: the bound value, or
undefined when the key is absent. -/
def objGet (entries : List (String × JsValue)) (key : String) : JsValue :=
  match entries.find? (fun e => e.fst == key) with
  | some e => e.snd
  | none => .undefined

/-- The loop body of resolver.ts getNestedValue: walk the remaining
path segments; a null or undefined intermediate yields undefined.
Property access on primitives yields undefined (built-in JS
properties such as length are not modelled); arrays index by a
numeric segment. -/
def getNested : JsValue → List String → JsValue
  | v, [] => v
  | .null, _ :: _ => .undefined
  | .undefined, _ :: _ => .undefined
  | .obj entries, k :: ks => getNested (objGet entries k) ks
  | .arr xs, k :: ks =>
      getNested (match k.toNat? with
        | some i => (xs.get? i).getD .undefined
        | none => .undefined) ks
  | .str _, _ :: _ => .undefined
  | .num _, _ :: _ => .undefined
  | .bool _, _ :: _ => .undefined

/-- resolver.ts getNestedValue: dotted-path lookup into the values
snapshot. -/
def getNestedValue (values : FormValues) (path : String) : JsValue :=
  getNested (JsValue.obj values) (path.splitOn ".")

/-- The contains case of the operator switch: string substring
when both operands are strings, array membership when the field is
an array and the comparand a string, otherwise false. -/
def containsOp : JsValue → JsValue → Bool
  | .str a, .str b => strIncludes a b
  | .arr xs, .str b => arrIncludes xs (.str b)
  | _, _ => false

/-- The greaterThan case: numeric comparison only, any non-numeric
operand yields false. -/
def greaterThanOp : JsValue → JsValue → Bool
  | .num a, .num b => decide (a > b)
  | _, _ => false

/-- The lessThan case: numeric comparison only, any non-numeric
operand yields false. -/
def lessThanOp : JsValue → JsValue → Bool
  | .num a, .num b => decide (a < b)
  | _, _ => false

/-- The in case: membership in an array comparand, false for a
non-array comparand. -/
def inOp (fieldValue compareValue : JsValue) : Bool :=
  match compareValue with
  | .arr xs => arrIncludes xs fieldValue
  | _ => false

/-- The notIn case: negated membership in an array comparand, true
for a non-array comparand. -/
def notInOp (fieldValue compareValue : JsValue) : Bool :=
  match compareValue with
  | .arr xs => !arrIncludes xs fieldValue
  | _ => true

/-- The operator switch of resolver.ts evaluateSimpleCondition,
applied to the already-resolved field value and the comparand.
Returns the boolean result together with the diagnostics the code
would emit via console.warn. The default branch of the switch is
the fail-open branch: unknown operator evaluates to true with a
diagnostic. -/
def applyOp (op : String) (fieldValue compareValue : JsValue) : Bool × List String :=
  if op = "equals" then (jsEq fieldValue compareValue, [])
  else if op = "notEquals" then (!jsEq fieldValue compareValue, [])
  else if op = "contains" then (containsOp fieldValue compareValue, [])
  else if op = "greaterThan" then (greaterThanOp fieldValue compareValue, [])
  else if op = "lessThan" then (lessThanOp fieldValue compareValue, [])
  else if op = "isEmpty" then (isEmpty fieldValue, [])
  else if op = "isNotEmpty" then (!isEmpty fieldValue, [])
  else if op = "in" then (inOp fieldValue compareValue, [])
  else if op = "notIn" then (notInOp fieldValue compareValue, [])
  else (true, ["Unknown operator: " ++ op])

/-- resolver.ts evaluateSimpleCondition: resolve the field by
dotted path, then apply the operator switch. -/
def evaluateSimpleCondition (field : String) (op : String) (value : JsValue)
    (values : FormValues) : Bool × List String :=
  applyOp op (getNestedValue values field) value

/-- The condition wire shape from schema/types.ts: simple
comparison, and, or, not, or a malformed object matching none of
the recognised shapes. The operator is kept as a string because a
schema arriving as JSON can carry any operator string. -/
inductive Condition where
  | simple (field : String) (op : String) (value : JsValue)
  | and (children : List Condition)
  | or (children : List Condition)
  | not (child : Condition)
  | unknown (tag : String)

mutual

/-- resolver.ts evaluateCondition: dispatch on the condition shape;
an object matching no known shape is the fail-open branch (true
plus a diagnostic). The boolean result is paired with the
diagnostics emitted. -/
def evaluateCondition : Condition → FormValues → Bool × List String
  | .simple f op v, values => evaluateSimpleCondition f op v values
  | .and cs, values => evalEvery cs values
  | .or cs, values => evalSome cs values
  | .not c, values =>
      let r := evaluateCondition c values
      (!r.fst, r.snd)
  | .unknown tag, _ => (true, ["Unknown condition type: " ++ tag])

/-- resolver.ts evaluateAndCondition via Array.prototype.every,
which short-circuits at the first false child. -/
def evalEvery : List Condition → FormValues → Bool × List String
  | [], _ => (true, [])
  | c :: cs, values =>
      let r := evaluateCondition c values
      if r.fst then
        let rest := evalEvery cs values
        (rest.fst, r.snd ++ rest.snd)
      else (false, r.snd)

/-- resolver.ts evaluateOrCondition via Array.prototype.some, which
short-circuits at the first true child. -/
def evalSome : List Condition → FormValues → Bool × List String
  | [], _ => (false, [])
  | c :: cs, values =>
      let r := evaluateCondition c values
      if r.fst then (true, r.snd)
      else
        let rest := evalSome cs values
        (rest.fst, r.snd ++ rest.snd)

end

/-- The boolean verdict of the resolver, diagnostics dropped. -/
def evaluate (c : Condition) (values : FormValues) : Bool :=
  (evaluateCondition c values).fst

/-
  Validation pipeline (src/validation/sync-validators.ts and
  src/validation/pipeline.ts).
-/

/-- The validation rule wire shape from schema/types.ts: a tagged
variant carrying an optional message (the trigger hint plays no
role inside the pipeline and is omitted). The value payloads follow
the declared interfaces: a number threshold for
minLength/maxLength/min/max, a pattern string for pattern, a
validator name for custom, a URL for async. -/
inductive ValidationRule where
  | required (message : Option String)
  | minLength (value : Int) (message : Option String)
  | maxLength (value : Int) (message : Option String)
  | pattern (value : String) (message : Option String)
  | min (value : Int) (message : Option String)
  | max (value : Int) (message : Option String)
  | email (message : Option String)
  | phone (message : Option String)
  | url (message : Option String)
  | custom (validator : String) (message : Option String)
  | async (endpoint : String) (message : Option String)
deriving DecidableEq, Repr

/-- The string discriminator of a rule, as stored in the rule
object field named type. -/
def ruleType : ValidationRule → String
  | .required _ => "required"
  | .minLength _ _ => "minLength"
  | .maxLength _ _ => "maxLength"
  | .pattern _ _ => "pattern"
  | .min _ _ => "min"
  | .max _ _ => "max"
  | .email _ => "email"
  | .phone _ => "phone"
  | .url _ => "url"
  | .custom _ _ => "custom"
  | .async _ _ => "async"

/-- The optional message carried by a rule. -/
def ruleMessage : ValidationRule → Option String
  | .required m => m
  | .minLength _ m => m
  | .maxLength _ m => m
  | .pattern _ m => m
  | .min _ m => m
  | .max _ m => m
  | .email m => m
  | .phone m => m
  | .url m => m
  | .custom _ m => m
  | .async _ m => m

/-- Host facilities used by the built-in validators but not defined
in the repository: the JS RegExp engine (compile a pattern string
to a test, or fail on an invalid pattern) and the URL parser. All
general theorems below hold for every instantiation. -/
structure HostSem where
  regexSem : String → Option (String → Bool)
  emailTest : String → Bool
  urlOk : String → Bool
  phoneTest : String → Bool

/-- sync-validators.ts required: fails on null or undefined, on a
string with empty trim, and on the boolean false, passing
everything else. -/
def required : JsValue → Option String
  | .null => some "This field is required"
  | .undefined => some "This field is required"
  | .str s => if jsTrim s = "" then some "This field is required" else none
  | .bool b => if b = false then some "This field is required" else none
  | _ => none

/-- sync-validators.ts minLength: only constrains strings. -/
def minLength (value : JsValue) (threshold : Int) : Option String :=
  match value with
  | .str s =>
      if (s.length : Int) < threshold then
        some s!"Must be at least {threshold} characters"
      else none
  | _ => none

/-- sync-validators.ts maxLength: only constrains strings. -/
def maxLength (value : JsValue) (threshold : Int) : Option String :=
  match value with
  | .str s =>
      if (s.length : Int) > threshold then
        some s!"Must be at most {threshold} characters"
      else none
  | _ => none

/-- JS truthiness fallback a or b on an optional string: the empty
string is falsy, so it falls through to the default exactly like an
absent value. -/
def jsOr (m : Option String) (fallback : String) : String :=
  match m with
  | some s => if s = "" then fallback else s
  | none => fallback

/-- sync-validators.ts pattern: passes on the empty string and on
non-strings; an invalid pattern string (regex compile failure) is
caught and treated as pass; otherwise the compiled test decides,
with the rule message falling back to Invalid format. -/
def pattern (H : HostSem) (patternStr : String) (message : Option String)
    (value : JsValue) : Option String :=
  match value with
  | .str s =>
      if s = "" then none
      else
        match H.regexSem patternStr with
        | none => none
        | some test => if test s then none else some (jsOr message "Invalid format")
  | _ => none

/-- sync-validators.ts email: passes on the empty string and on
non-strings, otherwise applies the fixed built-in email regex. -/
def email (H : HostSem) (value : JsValue) : Option String :=
  match value with
  | .str s =>
      if s = "" then none
      else if H.emailTest s then none
      else some "Please enter a valid email address"
  | _ => none

/-- sync-validators.ts min: only constrains numbers. -/
def min (value : JsValue) (threshold : Int) : Option String :=
  match value with
  | .num n => if n < threshold then some s!"Must be at least {threshold}" else none
  | _ => none

/-- sync-validators.ts max: only constrains numbers. -/
def max (value : JsValue) (threshold : Int) : Option String :=
  match value with
  | .num n => if n > threshold then some s!"Must be at most {threshold}" else none
  | _ => none

/-- sync-validators.ts url: passes on the empty string and on
non-strings, otherwise the host URL parser decides. -/
def url (H : HostSem) (value : JsValue) : Option String :=
  match value with
  | .str s =>
      if s = "" then none
      else if H.urlOk s then none
      else some "Please enter a valid URL"
  | _ => none

/-- sync-validators.ts phone: passes on the empty string and on
non-strings, otherwise the fixed built-in phone regex decides. -/
def phone (H : HostSem) (value : JsValue) : Option String :=
  match value with
  | .str s =>
      if s = "" then none
      else if H.phoneTest s then none
      else some "Please enter a valid phone number"
  | _ => none

/-- pipeline.ts validateRule: dispatch to the registered built-in
validator by rule type. A custom rule has no registry entry in the
core, and the async type has no sync validator: both log a warning
and pass (fail-open). The formValues argument is threaded through
as in the source even though no built-in consults it. -/
def validateRule (H : HostSem) (value : JsValue) (rule : ValidationRule)
    (_formValues : FormValues) : Option String :=
  match rule with
  | .required _ => required value
  | .minLength n _ => minLength value n
  | .maxLength n _ => maxLength value n
  | .pattern p m => pattern H p m value
  | .min n _ => min value n
  | .max n _ => max value n
  | .email _ => email H value
  | .phone _ => phone H value
  | .url _ => url H value
  | .custom _ _ => none
  | .async _ _ => none

/-- The per-field result shape of pipeline.ts validateFieldSync. -/
structure FieldValidationResult where
  fieldId : String
  isValid : Bool
  errors : List String
  failedRule : Option ValidationRule
deriving DecidableEq, Repr

/-- The rule loop of pipeline.ts validateFieldSync: skip async
rules, stop at the first error pushing the rule message with the
validator error as JS-truthiness fallback. -/
def validateRules (H : HostSem) (fieldId : String) (value : JsValue)
    (formValues : FormValues) : List ValidationRule → FieldValidationResult
  | [] => ⟨fieldId, true, [], none⟩
  | r :: rest =>
      if ruleType r = "async" then validateRules H fieldId value formValues rest
      else
        match validateRule H value r formValues with
        | some e => ⟨fieldId, false, [jsOr (ruleMessage r) e], some r⟩
        | none => validateRules H fieldId value formValues rest

/-- pipeline.ts validateFieldSync. -/
def validateFieldSync (H : HostSem) (fieldId : String) (value : JsValue)
    (rules : List ValidationRule) (formValues : FormValues) : FieldValidationResult :=
  validateRules H fieldId value formValues rules

/-
  Debounce of pipeline.ts under the single-threaded JS event-loop
  timer model, and the async validator body.
-/

/-- Event-loop model of pipeline.ts debounce for a chronologically
ordered list of calls, each a pair of call time and argument. Every
call clears the previous pending timeout and schedules the wrapped
function at its call time plus the delay; the pending timer of a
call is cancelled exactly when the next call arrives strictly
before it would fire. The result lists the timer expiries that
actually run the wrapped function: the network invocations, each
with its firing time and argument. -/
def debounceFires (ms : Nat) : List (Nat × α) → List (Nat × α)
  | [] => []
  | [(t, v)] => [(t + ms, v)]
  | (t, v) :: (t2, v2) :: rest =>
      if t2 < t + ms then debounceFires ms ((t2, v2) :: rest)
      else (t + ms, v) :: debounceFires ms ((t2, v2) :: rest)

/-- Outcome of the host fetch plus JSON decode inside
createAsyncValidator: either a transport-level failure (the fetch
rejected or the body failed to decode) or an HTTP response carrying
the server verdict. -/
inductive FetchOutcome where
  | networkError
  | response (status : Nat) (valid : Bool) (message : String)
deriving DecidableEq, Repr

/-- The Response.ok flag: status in the 2xx range. -/
def responseOk (status : Nat) : Bool :=
  200 ≤ status && status < 300

/-- The wrapped function body of pipeline.ts createAsyncValidator,
as a function of the fetch outcome: a non-ok response throws and is
caught by the same catch as a network failure, both resolving to
null; an ok response passes the server verdict through. -/
def asyncValidate : FetchOutcome → Option String
  | .networkError => none
  | .response status valid message =>
      if responseOk status then
        if valid then none else some message
      else none

/-
  Autosave save step (useAutosave in src/hooks):
  version tracking and conflict detection on a successful save.
-/

/-- The AutosaveState record kept by the useAutosave hook, with the
saved timestamp as a number. -/
structure AutosaveHookState where
  lastSaved : Option Nat
  isSaving : Bool
  error : Option String
  hasConflict : Bool
  serverVersion : Option Nat
deriving DecidableEq, Repr

/-- Initial hook state from useAutosave. -/
def initAutosave : AutosaveHookState :=
  ⟨none, false, none, false, none⟩

/-- Outcome of the externally supplied onSave function: a resolved
version number, or a rejection message. -/
inductive SaveOutcome where
  | ok (version : Nat)
  | err (message : String)
deriving DecidableEq, Repr

/-- The save callback of useAutosave: given the tracked expected
version (versionRef), the hook state, the awaited onSave outcome
and the current time, produce the new tracked version and state.
An already-running save returns unchanged. On success the conflict
check fires only when a positive version is tracked and the
returned version is not the tracked version plus one; otherwise the
returned version is adopted, the save time recorded and any
conflict cleared. A rejection records the error message. -/
def saveStep (tracked : Nat) (st : AutosaveHookState) (outcome : SaveOutcome)
    (now : Nat) : Nat × AutosaveHookState :=
  if st.isSaving then (tracked, st)
  else
    match outcome with
    | .err m => (tracked, { st with isSaving := false, error := some m })
    | .ok version =>
        if tracked > 0 && version ≠ tracked + 1 then
          (tracked, { st with isSaving := false, error := none,
                              hasConflict := true, serverVersion := some version })
        else
          (version, { st with isSaving := false, error := none,
                              lastSaved := some now, hasConflict := false,
                              serverVersion := none })

/-
  A concrete host semantics for witnesses and counterexamples: the
  RegExp engine interpreted on the one pattern string appearing in
  the spec example, lowercase letters only.
-/

/-- A concrete regex test: the semantics of the JS pattern anchored
lower-alpha-plus, true on nonempty strings of lowercase ascii
letters. -/
def lowerAlphaTest (s : String) : Bool :=
  !s.data.isEmpty && s.data.all (fun c => decide ('a' ≤ c) && decide (c ≤ 'z'))

/-- A concrete HostSem instantiation used by closed witness
statements: the regex engine knows exactly the pattern string of
the spec example and rejects every other pattern as invalid; the
fixed email, url and phone tests reject everything. -/
def exampleHost : HostSem where
  regexSem := fun p => if p = "^[a-z]+$" then some lowerAlphaTest else none
  emailTest := fun _ => false
  urlOk := fun _ => false
  phoneTest := fun _ => false

/-
  Helper lemmas shared by the claim theorems.
-/

/-- The boolean component of the every-fold is the conjunction of
the children verdicts. -/
theorem evalEvery_fst (cs : List Condition) (v : FormValues) :
    (evalEvery cs v).fst = cs.all (fun c => (evaluateCondition c v).fst) := by
  induction cs with
  | nil => simp [evalEvery]
  | cons c cs ih =>
      rw [evalEvery]
      by_cases h : (evaluateCondition c v).fst
      · simp [h, ih]
      · simp [h]

/-- The boolean component of the some-fold is the disjunction of
the children verdicts. -/
theorem evalSome_fst (cs : List Condition) (v : FormValues) :
    (evalSome cs v).fst = cs.any (fun c => (evaluateCondition c v).fst) := by
  induction cs with
  | nil => simp [evalSome]
  | cons c cs ih =>
      rw [evalSome]
      by_cases h : (evaluateCondition c v).fst
      · simp [h]
      · simp [h, ih]

/-- JS truthiness fallback agrees with Option.getD away from the
empty-string message. -/
theorem jsOr_eq_getD (m : Option String) (e : String) (h : m ≠ some "") :
    jsOr m e = m.getD e := by
  cases m with
  | none => rfl
  | some s =>
      have hs : s ≠ "" := by intro hs; exact h (by rw [hs])
      simp [jsOr, hs]

/-- The nine operator strings recognised by the resolver switch. -/
def knownOps : List String :=
  ["equals", "notEquals", "contains", "greaterThan", "lessThan",
   "isEmpty", "isNotEmpty", "in", "notIn"]

/-- Discriminator for array values. -/
def isArr : JsValue → Bool
  | .arr _ => true
  | _ => false

/-- Discriminator for string values. -/
def isStr : JsValue → Bool
  | .str _ => true
  | _ => false

/-
  Claim theorems.
-/

/-- C2: for every condition tree and values snapshot, Not evaluates
to the negation of its child, And is true iff every child is true,
and Or is true iff some child is true. -/
theorem C2_boolean_connectives :
    (∀ (c : Condition) (v : FormValues), evaluate (.not c) v = !evaluate c v) ∧
    (∀ (cs : List Condition) (v : FormValues),
        evaluate (.and cs) v = cs.all (fun c => evaluate c v)) ∧
    (∀ (cs : List Condition) (v : FormValues),
        evaluate (.or cs) v = cs.any (fun c => evaluate c v)) := by
  refine ⟨fun c v => ?_, fun cs v => ?_, fun cs v => ?_⟩
  · rw [evaluate, evaluateCondition]; rfl
  · rw [evaluate, evaluateCondition, evalEvery_fst]; rfl
  · rw [evaluate, evaluateCondition, evalSome_fst]; rfl

/-- C3: a simple condition with an operator outside the known set
evaluates to true (fail-open) and emits a diagnostic, and a
condition value matching none of the known shapes evaluates to true
and emits a diagnostic; both are total function results, never
raised errors. -/
theorem C3_fail_open :
    (∀ (field op : String) (value : JsValue) (values : FormValues),
        op ∉ knownOps →
        (evaluateSimpleCondition field op value values).fst = true ∧
        (evaluateSimpleCondition field op value values).snd ≠ []) ∧
    (∀ (tag : String) (values : FormValues),
        (evaluateCondition (.unknown tag) values).fst = true ∧
        (evaluateCondition (.unknown tag) values).snd ≠ []) := by
  constructor
  · intro field op value values h
    simp only [knownOps, List.mem_cons, List.not_mem_nil, or_false, not_or] at h
    obtain ⟨h1, h2, h3, h4, h5, h6, h7, h8, h9⟩ := h
    rw [evaluateSimpleCondition, applyOp, if_neg h1, if_neg h2, if_neg h3, if_neg h4,
        if_neg h5, if_neg h6, if_neg h7, if_neg h8, if_neg h9]
    exact ⟨rfl, by simp⟩
  · intro tag values
    rw [evaluateCondition]
    simp

/-- C3 witness: the unknown operator matches evaluates to true with
a diagnostic at a concrete input. -/
theorem C3_fail_open_witness :
    (evaluateSimpleCondition "x" "matches" .null []).fst = true ∧
    (evaluateSimpleCondition "x" "matches" .null []).snd ≠ [] :=
  C3_fail_open.1 "x" "matches" .null [] (by decide)

/-- C8: the resolver emptiness predicate marks null and undefined
empty, a string empty iff its trim is empty, numbers and booleans
never empty, an array empty iff of length zero, and any other value
not empty; the isNotEmpty operator is the exact negation of the
isEmpty operator. -/
theorem C8_isEmpty_semantics :
    isEmpty .null = true ∧ isEmpty .undefined = true ∧
    (∀ s, isEmpty (.str s) = (jsTrim s == "")) ∧
    (∀ n, isEmpty (.num n) = false) ∧
    (∀ b, isEmpty (.bool b) = false) ∧
    (∀ xs, isEmpty (.arr xs) = (xs.length == 0)) ∧
    (∀ entries, isEmpty (.obj entries) = false) ∧
    isEmpty (.num 0) = false ∧ isEmpty (.bool false) = false ∧
    (∀ fv cv, (applyOp "isEmpty" fv cv).fst = isEmpty fv) ∧
    (∀ fv cv, (applyOp "isNotEmpty" fv cv).fst = !isEmpty fv) := by
  exact ⟨rfl, rfl, fun s => rfl, fun n => rfl, fun b => rfl, fun xs => rfl,
      fun entries => rfl, rfl, rfl, fun fv cv => rfl, fun fv cv => rfl⟩

/-- C9: with a non-array comparand the in operator returns false
while notIn returns true; with an array comparand in tests
membership and notIn is its exact negation. -/
theorem C9_membership_asymmetry :
    (∀ fv cv, isArr cv = false →
        (applyOp "in" fv cv).fst = false ∧ (applyOp "notIn" fv cv).fst = true) ∧
    (∀ fv xs,
        (applyOp "in" fv (.arr xs)).fst = arrIncludes xs fv ∧
        (applyOp "notIn" fv (.arr xs)).fst = !arrIncludes xs fv) := by
  constructor
  · intro fv cv h
    cases cv <;> first
      | exact ⟨rfl, rfl⟩
      | simp [isArr] at h
  · intro fv xs
    exact ⟨rfl, rfl⟩

/-- C9 witness: a string comparand is not an array, so in is false
and notIn is true at a concrete input. -/
theorem C9_membership_asymmetry_witness :
    (applyOp "in" (.str "a") (.str "a")).fst = false ∧
    (applyOp "notIn" (.str "a") (.str "a")).fst = true :=
  C9_membership_asymmetry.1 (.str "a") (.str "a") rfl

/-- C7: the required validator fails exactly on null, undefined, a
string with empty trim, and the boolean false; every number
(including 0), the boolean true, every string with nonempty trim,
every array and every object passes. -/
theorem C7_required_semantics :
    required .null = some "This field is required" ∧
    required .undefined = some "This field is required" ∧
    (∀ s, required (.str s)
        = if jsTrim s = "" then some "This field is required" else none) ∧
    (∀ b, required (.bool b)
        = if b then none else some "This field is required") ∧
    (∀ n, required (.num n) = none) ∧
    required (.num 0) = none ∧
    (∀ xs, required (.arr xs) = none) ∧
    (∀ entries, required (.obj entries) = none) := by
  refine ⟨rfl, rfl, fun s => rfl, fun b => ?_, fun n => rfl, rfl,
      fun xs => rfl, fun entries => rfl⟩
  cases b <;> rfl

/-- C10: the pattern, email, url and phone validators all pass when
the value is the empty string or is not a string, for every host
regex and URL semantics, every pattern string and every rule
message; emptiness can thus only be reported by required. -/
theorem C10_format_validators_skip_empty :
    ∀ (H : HostSem) (v : JsValue) (p : String) (m : Option String),
      (v = .str "" ∨ isStr v = false) →
      pattern H p m v = none ∧ email H v = none ∧
      url H v = none ∧ phone H v = none := by
  intro H v p m h
  rcases h with h | h
  · subst h
    exact ⟨rfl, rfl, rfl, rfl⟩
  · cases v <;> simp_all [isStr] <;> exact ⟨rfl, rfl, rfl, rfl⟩

/-- C10 witness: at the empty string every format validator passes
under the concrete host semantics. -/
theorem C10_format_validators_skip_empty_witness :
    pattern exampleHost "^[a-z]+$" none (.str "") = none ∧
    email exampleHost (.str "") = none ∧
    url exampleHost (.str "") = none ∧
    phone exampleHost (.str "") = none :=
  C10_format_validators_skip_empty exampleHost (.str "") "^[a-z]+$" none (Or.inl rfl)

/-- C4: under the event-loop timer model of debounce, a call
arriving strictly within the delay of the prior call cancels the
prior pending timer, so the prior call never reaches the wrapped
function and contributes no network invocation; in particular two
calls fired d apart with d less than the delay produce exactly one
invocation, at the second call time plus the delay and carrying the
second value. -/
theorem C4_debounce_supersedes :
    (∀ (α : Type) (ms t1 t2 : Nat) (v1 v2 : α) (rest : List (Nat × α)),
        t2 < t1 + ms →
        debounceFires ms ((t1, v1) :: (t2, v2) :: rest)
          = debounceFires ms ((t2, v2) :: rest)) ∧
    (∀ (α : Type) (ms t1 t2 : Nat) (v1 v2 : α),
        t2 < t1 + ms →
        debounceFires ms [(t1, v1), (t2, v2)] = [(t2 + ms, v2)]) := by
  constructor
  · intro α ms t1 t2 v1 v2 rest h
    rw [debounceFires, if_pos h]
  · intro α ms t1 t2 v1 v2 h
    rw [debounceFires, if_pos h, debounceFires]

/-- C4 witness: two calls at times 0 and 50 with a 300ms delay
produce exactly one invocation, at time 350 with the second value.
-/
theorem C4_debounce_supersedes_witness :
    debounceFires 300 [(0, "first"), (50, "second")] = [(350, "second")] :=
  C4_debounce_supersedes.2 String 300 0 50 "first" "second" (by decide)

/-- C5: the async validator resolves to null on a transport failure
and on every non-2xx status; on a 2xx response it resolves to null
exactly when the server valid flag is true and to the server
message otherwise. -/
theorem C5_async_fail_open :
    asyncValidate .networkError = none ∧
    (∀ (status : Nat) (valid : Bool) (message : String),
        responseOk status = false →
        asyncValidate (.response status valid message) = none) ∧
    (∀ (status : Nat) (message : String),
        responseOk status = true →
        asyncValidate (.response status true message) = none) ∧
    (∀ (status : Nat) (message : String),
        responseOk status = true →
        asyncValidate (.response status false message) = some message) := by
  refine ⟨rfl, fun status valid message h => ?_, fun status message h => ?_,
      fun status message h => ?_⟩
  · rw [asyncValidate, h]; rfl
  · rw [asyncValidate, h]; rfl
  · rw [asyncValidate, h]; rfl

/-- C5 witness: a 500 response resolves to null, a 200 response
with valid true resolves to null, and a 200 response with valid
false resolves to the server message. -/
theorem C5_async_fail_open_witness :
    asyncValidate (.response 500 false "taken") = none ∧
    asyncValidate (.response 200 true "ok") = none ∧
    asyncValidate (.response 200 false "taken") = some "taken" :=
  ⟨C5_async_fail_open.2.1 500 false "taken" (by decide),
   C5_async_fail_open.2.2.1 200 "ok" (by decide),
   C5_async_fail_open.2.2.2 200 "taken" (by decide)⟩

/-- C6 counterexample: with tracked version 0 a successful save
returning version 5 is not a simple increment, yet the coordinator
does not enter the conflict state: it adopts version 5 and records
the save time, because the conflict check is guarded by a positive
tracked version. -/
theorem C6_counterexample :
    (5 : Nat) ≠ 0 + 1 ∧
    (saveStep 0 initAutosave (.ok 5) 100).snd.hasConflict = false ∧
    (saveStep 0 initAutosave (.ok 5) 100).fst = 5 ∧
    (saveStep 0 initAutosave (.ok 5) 100).snd.lastSaved = some 100 := by
  refine ⟨by decide, ?_, ?_, ?_⟩ <;> rfl

/-- C6 as amended: on a successful save, when the tracked version
is positive and the returned version is not the tracked version
plus one, the coordinator enters the conflict state, records the
server version and keeps its tracked version; otherwise, that is on
a first save with no positive tracked version or on a simple
increment, it records the save time, clears any conflict and adopts
the returned version. -/
theorem C6_version_conflict_detection :
    ∀ (tracked : Nat) (st : AutosaveHookState) (version now : Nat),
      st.isSaving = false →
      ((0 < tracked → version ≠ tracked + 1 →
          saveStep tracked st (.ok version) now
            = (tracked, { st with isSaving := false, error := none,
                                  hasConflict := true,
                                  serverVersion := some version })) ∧
       ((tracked = 0 ∨ version = tracked + 1) →
          saveStep tracked st (.ok version) now
            = (version, { st with isSaving := false, error := none,
                                  lastSaved := some now, hasConflict := false,
                                  serverVersion := none }))) := by
  intro tracked st version now hs
  constructor
  · intro hpos hne
    simp [saveStep, hs, hpos, hne]
  · intro hcase
    rcases hcase with h0 | hinc
    · subst h0
      simp [saveStep, hs]
    · subst hinc
      simp [saveStep, hs]

/-- C6 witness: with tracked version 1 a save returning version 5
triggers the conflict state with server version 5. -/
theorem C6_version_conflict_detection_witness :
    saveStep 1 initAutosave (.ok 5) 7
      = (1, { initAutosave with isSaving := false, error := none,
                                hasConflict := true, serverVersion := some 5 }) :=
  (C6_version_conflict_detection 1 initAutosave 5 7 rfl).1 (by decide) (by decide)

/-- C1 counterexample: with rules minLength 3 then pattern and the
value ab1, the sync pass reports the pattern failure, not the
minLength failure: the three-character value satisfies minLength 3,
so the first failing rule is the pattern rule. -/
theorem C1_counterexample :
    (validateFieldSync exampleHost "f" (.str "ab1")
        [.minLength 3 none, .pattern "^[a-z]+$" none] []).failedRule
      = some (.pattern "^[a-z]+$" none) ∧
    (validateFieldSync exampleHost "f" (.str "ab1")
        [.minLength 3 none, .pattern "^[a-z]+$" none] []).failedRule
      ≠ some (.minLength 3 none) ∧
    (validateFieldSync exampleHost "f" (.str "ab1")
        [.minLength 3 none, .pattern "^[a-z]+$" none] []).errors
      = ["Invalid format"] := by
  refine ⟨rfl, by decide, rfl⟩

/-- C1 as amended: the sync pass walks the rules in list order,
skipping every async rule; at the first remaining rule whose
validator produces an error the pass stops with exactly that one
message (the rule message when it carries one, the validator error
otherwise), that rule as failedRule and isValid false; when every
rule is async or passes, the result is valid with no errors and no
failedRule. For rules minLength 3 then pattern lower-alpha and
value ab1, only the pattern failure is reported, the value having
length 3. -/
theorem C1_fail_fast :
    (∀ (H : HostSem) (fieldId : String) (value : JsValue) (formValues : FormValues)
        (pre post : List ValidationRule) (r : ValidationRule) (e : String),
        (∀ q ∈ pre, ruleType q = "async" ∨ validateRule H value q formValues = none) →
        ruleType r ≠ "async" →
        validateRule H value r formValues = some e →
        ruleMessage r ≠ some "" →
        validateFieldSync H fieldId value (pre ++ r :: post) formValues
          = ⟨fieldId, false, [(ruleMessage r).getD e], some r⟩) ∧
    (∀ (H : HostSem) (fieldId : String) (value : JsValue) (formValues : FormValues)
        (rules : List ValidationRule),
        (∀ q ∈ rules, ruleType q = "async" ∨ validateRule H value q formValues = none) →
        validateFieldSync H fieldId value rules formValues
          = ⟨fieldId, true, [], none⟩) ∧
    validateFieldSync exampleHost "f" (.str "ab1")
        [.minLength 3 none, .pattern "^[a-z]+$" none] []
      = ⟨"f", false, ["Invalid format"], some (.pattern "^[a-z]+$" none)⟩ := by
  refine ⟨?_, ?_, rfl⟩
  · intro H fieldId value formValues pre post r e hpre hr he hm
    induction pre with
    | nil =>
        have hg : jsOr (ruleMessage r) e = (ruleMessage r).getD e := jsOr_eq_getD _ _ hm
        rw [validateFieldSync, List.nil_append, validateRules, if_neg hr, he, ← hg]
        try rfl
    | cons q pre ih =>
        have hq := hpre q (List.mem_cons_self q pre)
        have hrest : ∀ p ∈ pre, ruleType p = "async" ∨
            validateRule H value p formValues = none :=
          fun p hp => hpre p (List.mem_cons_of_mem q hp)
        rw [validateFieldSync, List.cons_append, validateRules]
        rcases hq with hq | hq
        · rw [if_pos hq]
          exact ih hrest
        · by_cases ha : ruleType q = "async"
          · rw [if_pos ha]
            exact ih hrest
          · rw [if_neg ha, hq]
            exact ih hrest
  · intro H fieldId value formValues rules hall
    induction rules with
    | nil => rfl
    | cons q rules ih =>
        have hq := hall q (List.mem_cons_self q rules)
        have hrest : ∀ p ∈ rules, ruleType p = "async" ∨
            validateRule H value p formValues = none :=
          fun p hp => hall p (List.mem_cons_of_mem q hp)
        rw [validateFieldSync, validateRules]
        rcases hq with hq | hq
        · rw [if_pos hq]
          exact ih hrest
        · by_cases ha : ruleType q = "async"
          · rw [if_pos ha]
            exact ih hrest
          · rw [if_neg ha, hq]
            exact ih hrest

/-- C1 witness: an async rule followed by a required rule on the
empty string skips the async rule and reports the required failure
as the sole error. -/
theorem C1_fail_fast_witness :
    validateFieldSync exampleHost "f" (.str "")
        [.async "u" none, .required none] []
      = ⟨"f", false, ["This field is required"], some (.required none)⟩ :=
  C1_fail_fast.1 exampleHost "f" (.str "") [] [.async "u" none] [] (.required none)
    "This field is required" (by decide) (by decide) (by decide) (by decide)

end FormEngine
